import Mathlib

/-!
Shallow embedding of the `srg` rhythm-game core (chart lexer/parser in
`src/sheet.rs`, simulation engine in `src/game.rs`, and the legacy copy of the
simulation in `src/main.rs`).  All `f32` arithmetic of the source is embedded
as exact rational arithmetic over `ℚ`; `u32` values are embedded as `Nat` with
the `< 2^32` bound enforced where the source parses them.  Side effects that
the source performs through external collaborators (audio playback, particle
spawning, rendering) are outside the embedded state, as are the cosmetic
particle system fields.
-/

deriving instance DecidableEq for Except

namespace Srg

/-! ## Character-level helpers for the lexer -/

/-- Whitespace test used to split chart source into atoms.  Models Rust's
`str::split_whitespace` (Unicode whitespace, restricted here to the ASCII
whitespace characters that can occur in chart sources). -/
def isWsChar (c : Char) : Bool :=
  c == ' ' || c == '\n' || c == '\t' || c == '\r'

/-- Splits a character list into maximal runs of non-whitespace characters,
dropping all whitespace.  Models `str::split_whitespace` in
`parse_tokes` (src/sheet.rs). -/
def splitWsAux : List Char → List Char → List String
  | [], acc => if acc.isEmpty then [] else [String.mk acc.reverse]
  | c :: rest, acc =>
    if isWsChar c then
      if acc.isEmpty then splitWsAux rest [] else String.mk acc.reverse :: splitWsAux rest []
    else
      splitWsAux rest (c :: acc)

/-- Whitespace splitting of a source string into atoms. -/
def splitWs (cs : List Char) : List String :=
  splitWsAux cs []

/-- First occurrence of characters satisfying `p`: returns the characters
before the first hit and the characters after it.  Models Rust's `str::find`
followed by slicing at the found index. -/
def splitOnFirstP (p : Char → Bool) : List Char → Option (List Char × List Char)
  | [] => none
  | c :: rest =>
    if p c then some ([], rest)
    else
      match splitOnFirstP p rest with
      | some (pre, post) => some (c :: pre, post)
      | none => none

/-- `source.find(sep)` and slicing, as used by `TimeOffset::parse`. -/
def splitOnFirst (sep : Char) (cs : List Char) : Option (List Char × List Char) :=
  splitOnFirstP (fun c => c == sep) cs

/-- Accumulating decimal-digit evaluation; fails on a non-digit. -/
def digitsToNatAux : List Char → Nat → Option Nat
  | [], acc => some acc
  | c :: rest, acc =>
    if c.isDigit then digitsToNatAux rest (acc * 10 + (c.toNat - 48)) else none

/-- Value of a non-empty all-digit character list; `none` otherwise. -/
def digitsToNat : List Char → Option Nat
  | [] => none
  | c :: rest => digitsToNatAux (c :: rest) 0

/-- Models Rust's `u32::from_str`: an optional leading `+`, then one or more
decimal digits, and the value must fit in 32 bits. -/
def parseU32 (s : List Char) : Option Nat :=
  let s' := match s with
    | '+' :: rest => rest
    | _ => s
  match digitsToNat s' with
  | some n => if n < 2 ^ 32 then some n else none
  | none => none

/-- Mantissa of a decimal float literal: `Digit+ | Digit+ '.' Digit* |
Digit* '.' Digit+`, valued exactly in `ℚ`. -/
def parseMantissa (cs : List Char) : Option ℚ :=
  match splitOnFirst '.' cs with
  | some (ipart, fpart) =>
    if ipart.isEmpty && fpart.isEmpty then none
    else
      match (if ipart.isEmpty then some 0 else digitsToNat ipart),
            (if fpart.isEmpty then some 0 else digitsToNat fpart) with
      | some i, some f => some ((i : ℚ) + (f : ℚ) / (10 : ℚ) ^ fpart.length)
      | _, _ => none
  | none => (digitsToNat cs).map (fun n => (n : ℚ))

/-- Exponent clause of a float literal: optional sign then digits. -/
def parseExp (cs : List Char) : Option Int :=
  match cs with
  | '+' :: rest => (digitsToNat rest).map (fun n => (n : Int))
  | '-' :: rest => (digitsToNat rest).map (fun n => -(n : Int))
  | _ => (digitsToNat cs).map (fun n => (n : Int))

/-- Models Rust's `f32::from_str` as used by `Token::parse`, restricted to
finite decimal literals (optional sign, decimal mantissa, optional `e`/`E`
exponent) and valued exactly in `ℚ`; the `inf`/`NaN` spellings and binary
rounding of `f32` are not representable in this exact-arithmetic embedding. -/
def parseFloat (s : String) : Option ℚ :=
  let cs := s.toList
  let signed : ℚ × List Char := match cs with
    | '-' :: rest => (-1, rest)
    | '+' :: rest => (1, rest)
    | _ => (1, cs)
  let sign := signed.1
  let body := signed.2
  match splitOnFirstP (fun c => c == 'e' || c == 'E') body with
  | some (m, e) =>
    match parseMantissa m, parseExp e with
    | some mv, some ev => some (sign * mv * (10 : ℚ) ^ ev)
    | _, _ => none
  | none => (parseMantissa body).map (fun mv => sign * mv)

/-! ## Data model (src/sheet.rs, src/game.rs) -/

/-- `Direction` (src/game.rs / src/main.rs). -/
inductive Direction
  | Up
  | Down
  | Left
  | Right
deriving DecidableEq

/-- `ProjectileType` (src/game.rs / src/main.rs). -/
inductive ProjectileType
  | Normal
deriving DecidableEq

/-- `TimeOffset` (src/sheet.rs): `fourths`, `beats`, `bars` are `u32`. -/
structure TimeOffset where
  fourths : Nat
  beats : Nat
  bars : Nat
deriving DecidableEq

/-- `Token` (src/sheet.rs). -/
inductive Token
  | Bpm
  | Offset
  | TimeOffset (time_offset : TimeOffset)
  | Direction (direction : Direction)
  | Number (number : ℚ)
  | Projectile (ty : ProjectileType)
deriving DecidableEq

/-- `ParseError` (src/sheet.rs). -/
inductive ParseError
  | UnrecognizedToken (text : String)
  | UnexpectedToken (actual : Token)
  | UnexpectedEof
deriving DecidableEq

/-! ## Lexer (src/sheet.rs) -/

/-- Second half of `TimeOffset::parse`: after the optional `F;` prefix has
been consumed, split on `|` to read `beats` and the optional `bars`. -/
def TimeOffset.parseBeatsBars (fourths : Nat) (s : List Char) :
    Except ParseError TimeOffset :=
  match splitOnFirst '|' s with
  | some (pre, post) =>
    match parseU32 pre with
    | none => .error (.UnrecognizedToken (String.mk pre))
    | some beats =>
      match parseU32 post with
      | none => .error (.UnrecognizedToken (String.mk post))
      | some bars => .ok ⟨fourths, beats, bars⟩
  | none =>
    match parseU32 s with
    | none => .error (.UnrecognizedToken (String.mk s))
    | some beats => .ok ⟨fourths, beats, 0⟩

/-- `TimeOffset::parse` (src/sheet.rs): an atom `[F;]B[|N]` where each
segment is a `u32`. -/
def TimeOffset.parse (s : String) : Except ParseError TimeOffset :=
  match splitOnFirst ';' s.toList with
  | some (pre, post) =>
    match parseU32 pre with
    | none => .error (.UnrecognizedToken (String.mk pre))
    | some fourths => TimeOffset.parseBeatsBars fourths post
  | none => TimeOffset.parseBeatsBars 0 s.toList

/-- `TimeOffset::time` (src/sheet.rs): duration in seconds at tempo `bpm`. -/
def TimeOffset.time (o : TimeOffset) (bpm : ℚ) : ℚ :=
  let beat := 60 / bpm
  (o.fourths : ℚ) * beat / 4 + (o.beats : ℚ) * beat + (o.bars : ℚ) * beat * 4

/-- `Token::parse` (src/sheet.rs): time-offset syntax first, then a float
literal, then the keyword table, otherwise `UnrecognizedToken`. -/
def Token.parse (s : String) : Except ParseError Token :=
  match TimeOffset.parse s with
  | .ok time_offset => .ok (.TimeOffset time_offset)
  | .error _ =>
    match parseFloat s with
    | some number => .ok (.Number number)
    | none =>
      if s = "#bpm" then .ok .Bpm
      else if s = "#offset" then .ok .Offset
      else if s = "U" then .ok (.Direction .Up)
      else if s = "D" then .ok (.Direction .Down)
      else if s = "L" then .ok (.Direction .Left)
      else if s = "R" then .ok (.Direction .Right)
      else if s = "norm" then .ok (.Projectile .Normal)
      else .error (.UnrecognizedToken s)

/-- `parse_tokes` (src/sheet.rs): lex every whitespace-separated atom in
order, propagating the first failure. -/
def parse_tokes (source : String) : Except ParseError (List Token) :=
  (splitWs source.toList).mapM Token.parse

/-! ## Chart parser (src/sheet.rs, src/game.rs) -/

/-- `Projectile` (src/game.rs / src/main.rs). -/
structure Projectile where
  arrival_time : ℚ
  direction : Direction
  ty : ProjectileType
deriving DecidableEq

/-- `Sheet` (src/sheet.rs). -/
structure Sheet where
  bpm : ℚ
  start_offset : ℚ
  projectiles : List Projectile
deriving DecidableEq

/-- `Projectile::parse` (src/game.rs): consume a `Projectile Direction
TimeOffset` triple from the token stream; the new arrival time is the running
offset plus the triple's time offset at the chart tempo.  Returns the parsed
projectile and the unconsumed tokens. -/
def Projectile.parse (toks : List Token) (bpm offset : ℚ) :
    Except ParseError (Projectile × List Token) :=
  match toks with
  | [] => .error .UnexpectedEof
  | t :: rest =>
    match t with
    | .Projectile ty =>
      match rest with
      | [] => .error .UnexpectedEof
      | d :: rest2 =>
        match d with
        | .Direction direction =>
          match rest2 with
          | [] => .error .UnexpectedEof
          | o :: rest3 =>
            match o with
            | .TimeOffset time_offset =>
              .ok (⟨offset + time_offset.time bpm, direction, ty⟩, rest3)
            | _ => .error (.UnexpectedToken o)
        | _ => .error (.UnexpectedToken d)
    | _ => .error (.UnexpectedToken t)

/-- The body loop of `Sheet::parse` (src/sheet.rs): while tokens remain,
parse a triple with `Projectile::parse` and advance the running offset to the
parsed arrival time.  `Projectile.parse` is inlined so that the recursion is
structural; `parseProjectiles_eq` below relates the two. -/
def parseProjectiles : List Token → ℚ → ℚ → Except ParseError (List Projectile)
  | [], _, _ => .ok []
  | t :: rest, bpm, start =>
    match t with
    | .Projectile ty =>
      match rest with
      | [] => .error .UnexpectedEof
      | d :: rest2 =>
        match d with
        | .Direction direction =>
          match rest2 with
          | [] => .error .UnexpectedEof
          | o :: rest3 =>
            match o with
            | .TimeOffset time_offset =>
              match parseProjectiles rest3 bpm (start + time_offset.time bpm) with
              | .error e => .error e
              | .ok ps => .ok (⟨start + time_offset.time bpm, direction, ty⟩ :: ps)
            | _ => .error (.UnexpectedToken o)
        | _ => .error (.UnexpectedToken d)
    | _ => .error (.UnexpectedToken t)

/-- `Sheet::parse_bpm` (src/sheet.rs), on an explicit token list: expects a
`Bpm` marker then a `Number`, returning the tempo and the rest of the
stream. -/
def Sheet.parseBpm (toks : List Token) : Except ParseError (ℚ × List Token) :=
  match toks with
  | [] => .error .UnexpectedEof
  | bpm :: rest =>
    match bpm with
    | .Bpm =>
      match rest with
      | [] => .error .UnexpectedEof
      | n :: rest2 =>
        match n with
        | .Number bpm => .ok (bpm, rest2)
        | _ => .error (.UnexpectedToken n)
    | _ => .error (.UnexpectedToken bpm)

/-- `Sheet::parse_offset` (src/sheet.rs), on an explicit token list: expects
an `Offset` marker then a `Number`. -/
def Sheet.parseOffset (toks : List Token) : Except ParseError (ℚ × List Token) :=
  match toks with
  | [] => .error .UnexpectedEof
  | offset :: rest =>
    match offset with
    | .Offset =>
      match rest with
      | [] => .error .UnexpectedEof
      | n :: rest2 =>
        match n with
        | .Number offset => .ok (offset, rest2)
        | _ => .error (.UnexpectedToken n)
    | _ => .error (.UnexpectedToken offset)

/-- `Sheet::parse` (src/sheet.rs): lex the source, read the `#bpm` and
`#offset` headers, then consume body triples until the stream is empty. -/
def Sheet.parse (source : String) : Except ParseError Sheet :=
  match parse_tokes source with
  | .error e => .error e
  | .ok tokens =>
    match Sheet.parseBpm tokens with
    | .error e => .error e
    | .ok (bpm, tokens) =>
      match Sheet.parseOffset tokens with
      | .error e => .error e
      | .ok (start_offset, tokens) =>
        match parseProjectiles tokens bpm start_offset with
        | .error e => .error e
        | .ok projectiles => .ok ⟨bpm, start_offset, projectiles⟩

/-! ## Simulation engine (src/game.rs) -/

/-- `Env` (src/game.rs): elapsed gameplay time and approach speed.
`Env::new` gives `time = 0`, `speed = 128`. -/
structure Env where
  time : ℚ
  speed : ℚ
deriving DecidableEq

/-- `Env::new` (src/game.rs). -/
def Env.new : Env := ⟨0, 128⟩

/-- `ProjectileHit` (src/game.rs / src/main.rs). -/
inductive ProjectileHit
  | None
  | Blocked
  | Hit
deriving DecidableEq

/-- `Projectile::distance` (src/game.rs):
`(arrival_time - time) * speed * (bpm / 60) + 48`. -/
def Projectile.distance (p : Projectile) (env : Env) (bpm : ℚ) : ℚ :=
  (p.arrival_time - env.time) * env.speed * (bpm / 60) + 48

/-- `Projectile::update` (src/game.rs): per-event classification against the
current shield direction. -/
def Projectile.update (p : Projectile) (env : Env) (shield : Option Direction)
    (bpm : ℚ) : ProjectileHit :=
  let blocking : Bool :=
    match shield with
    | some shield => shield == p.direction
    | none => false
  let distance := p.distance env bpm
  if blocking ∧ distance < 48 then ProjectileHit.Blocked
  else if distance ≤ 16 then ProjectileHit.Hit
  else ProjectileHit.None

/-- The mutable state threaded through the `retain` closure of
`GameState::update` (src/game.rs): camera shake, score and death progress.
The sound and particle side effects of the closure go to external
collaborators and are not part of the embedded state. -/
structure HitState where
  camera_shake : ℚ
  score : Nat
  death : Option ℚ
deriving DecidableEq

/-- The `self.projectiles.retain(...)` loop of `GameState::update`
(src/game.rs), in element order: classify each projectile, drop it exactly
when it is `Blocked` (adding the shake impulse `0.01` and one point of
score), and on `Hit` set `death` to `0` and reset the camera shake. -/
def processProjectiles (env : Env) (shield : Option Direction) (bpm : ℚ) :
    List Projectile → HitState → List Projectile × HitState
  | [], st => ([], st)
  | p :: ps, st =>
    let hit := p.update env shield bpm
    let retain : Bool :=
      match hit with
      | ProjectileHit.None => true
      | ProjectileHit.Blocked => false
      | ProjectileHit.Hit => true
    let st1 :=
      if retain then st
      else { st with camera_shake := st.camera_shake + 1 / 100, score := st.score + 1 }
    let st2 :=
      match hit with
      | ProjectileHit.Hit => { st1 with death := some 0, camera_shake := 0 }
      | _ => st1
    let rec_result := processProjectiles env shield bpm ps st2
    (if retain then p :: rec_result.1 else rec_result.1, rec_result.2)

/-- `GameState` (src/game.rs), without the cosmetic `particles` field (the
particle system is an external collaborator per the spec's scope). -/
structure GameState where
  shield : Option Direction
  env : Env
  projectiles : List Projectile
  camera_shake : ℚ
  score : Nat
  death : Option ℚ
deriving DecidableEq

/-- `GameState::new` (src/game.rs): the fresh run state cloned from the
chart template. -/
def GameState.new (sheet : Sheet) : GameState :=
  { shield := none
    env := Env.new
    projectiles := sheet.projectiles
    camera_shake := 0
    score := 0
    death := none }

/-- `GameState::restart` (src/game.rs): replaces the whole state with
`GameState::new` (the `start` call only replays the song, a collaborator
side effect). -/
def GameState.restart (sheet : Sheet) (_s : GameState) : GameState :=
  GameState.new sheet

/-- Frame-local input (src/game.rs `GameState::update`): the frame's
wall-clock delta and whether each direction key (`W`/`Up`, `S`/`Down`,
`A`/`Left`, `D`/`Right`) and the restart key `R` was freshly pressed. -/
structure Input where
  dt : ℚ
  up : Bool
  down : Bool
  left : Bool
  right : Bool
  restart : Bool

/-- The four `is_key_pressed` shield updates of `GameState::update`
(src/game.rs), in source order Up, Down, Left, Right (a later pressed
direction overwrites an earlier one). -/
def applyShieldInput (shield : Option Direction) (inp : Input) : Option Direction :=
  let shield := if inp.up then some Direction.Up else shield
  let shield := if inp.down then some Direction.Down else shield
  let shield := if inp.left then some Direction.Left else shield
  if inp.right then some Direction.Right else shield

/-- `GameState::update` (src/game.rs): advance elapsed time by the
death-scaled frame delta; if dying, advance the death timer by the unscaled
delta; otherwise read shield input, run the retain loop over the live
projectiles, decay the camera shake by `0.9` and grow the approach speed;
finally, if restart was pressed, rebuild the state from the chart. -/
def GameState.update (sheet : Sheet) (s : GameState) (inp : Input) : GameState :=
  let death_frame_time := inp.dt * max (1 - s.death.getD 0) 0
  let s := { s with env := { s.env with time := s.env.time + death_frame_time } }
  let s :=
    match s.death with
    | some death => { s with death := some (death + inp.dt) }
    | none =>
      let shield := applyShieldInput s.shield inp
      let result := processProjectiles s.env shield sheet.bpm s.projectiles
        ⟨s.camera_shake, s.score, none⟩
      { s with
        shield := shield
        projectiles := result.1
        camera_shake := result.2.camera_shake * (9 / 10)
        score := result.2.score
        death := result.2.death
        env := { s.env with speed := s.env.speed + inp.dt * 2 } }
  if inp.restart then GameState.restart sheet s else s

/-! ## Legacy simulation copy (src/main.rs) -/

namespace MainRs

/-- `Projectile::distance` as defined in src/main.rs: identical to the
src/game.rs copy except that the tempo factor is `bpm / 120`, not
`bpm / 60`. -/
def Projectile.distance (p : Srg.Projectile) (env : Env) (bpm : ℚ) : ℚ :=
  (p.arrival_time - env.time) * env.speed * (bpm / 120) + 48

/-- `Projectile::update` as defined in src/main.rs: textually the same
classification as the src/game.rs copy, but over the src/main.rs distance. -/
def Projectile.update (p : Srg.Projectile) (env : Env) (shield : Option Direction)
    (bpm : ℚ) : ProjectileHit :=
  let blocking : Bool :=
    match shield with
    | some shield => shield == p.direction
    | none => false
  let distance := Projectile.distance p env bpm
  if blocking ∧ distance < 48 then ProjectileHit.Blocked
  else if distance ≤ 16 then ProjectileHit.Hit
  else ProjectileHit.None

end MainRs

/-! ## Theorems -/

/-- Characterization of the Blocked outcome of `Projectile::update`. -/
theorem update_eq_blocked_iff (p : Projectile) (env : Env)
    (sh : Option Direction) (bpm : ℚ) :
    p.update env sh bpm = ProjectileHit.Blocked
      ↔ sh = some p.direction ∧ p.distance env bpm < 48 := by
  cases sh with
  | none =>
    simp only [Projectile.update]
    split_ifs with h1 h2 <;> simp_all
  | some d =>
    by_cases hd : d = p.direction
    · subst hd
      simp only [Projectile.update, beq_self_eq_true]
      split_ifs with h1 h2 <;> simp_all
    · have hb : (d == p.direction) = false := by simp [hd]
      simp only [Projectile.update, hb]
      split_ifs with h1 h2 <;> simp_all

/-- Characterization of the Hit outcome of `Projectile::update`. -/
theorem update_eq_hit_iff (p : Projectile) (env : Env)
    (sh : Option Direction) (bpm : ℚ) :
    p.update env sh bpm = ProjectileHit.Hit
      ↔ ¬(sh = some p.direction ∧ p.distance env bpm < 48)
        ∧ p.distance env bpm ≤ 16 := by
  cases sh with
  | none =>
    simp only [Projectile.update]
    split_ifs with h1 h2 <;> simp_all
  | some d =>
    by_cases hd : d = p.direction
    · subst hd
      simp only [Projectile.update, beq_self_eq_true]
      split_ifs with h1 h2 <;> simp_all
    · have hb : (d == p.direction) = false := by simp [hd]
      simp only [Projectile.update, hb]
      split_ifs with h1 h2 <;> simp_all

/-- Characterization of the Pending outcome of `Projectile::update`. -/
theorem update_eq_none_iff (p : Projectile) (env : Env)
    (sh : Option Direction) (bpm : ℚ) :
    p.update env sh bpm = ProjectileHit.None
      ↔ ¬(sh = some p.direction ∧ p.distance env bpm < 48)
        ∧ ¬ p.distance env bpm ≤ 16 := by
  cases sh with
  | none =>
    simp only [Projectile.update]
    split_ifs with h1 h2 <;> simp_all
  | some d =>
    by_cases hd : d = p.direction
    · subst hd
      simp only [Projectile.update, beq_self_eq_true]
      split_ifs with h1 h2 <;> simp_all
    · have hb : (d == p.direction) = false := by simp [hd]
      simp only [Projectile.update, hb]
      split_ifs with h1 h2 <;> simp_all

/-- The retain loop keeps exactly the projectiles that are not Blocked, in
order, independently of the threaded state. -/
theorem processProjectiles_fst (env : Env) (sh : Option Direction) (bpm : ℚ)
    (ps : List Projectile) (st : HitState) :
    (processProjectiles env sh bpm ps st).1
      = ps.filter (fun p => decide (¬ p.update env sh bpm = ProjectileHit.Blocked)) := by
  induction ps generalizing st with
  | nil => rfl
  | cons p rest ih =>
    simp only [processProjectiles]
    cases h : p.update env sh bpm <;>
      simp [h, ih, List.filter_cons]

/-- The retain loop adds one point of score per Blocked projectile. -/
theorem processProjectiles_score (env : Env) (sh : Option Direction) (bpm : ℚ)
    (ps : List Projectile) (st : HitState) :
    (processProjectiles env sh bpm ps st).2.score
      = st.score
        + (ps.filter (fun p => decide (p.update env sh bpm = ProjectileHit.Blocked))).length := by
  induction ps generalizing st with
  | nil => rfl
  | cons p rest ih =>
    simp only [processProjectiles]
    cases h : p.update env sh bpm <;>
      simp [h, ih, List.filter_cons] <;> omega

/-- The retain loop sets death progress to 0 exactly when some projectile is
classified Hit, and leaves it unchanged otherwise. -/
theorem processProjectiles_death (env : Env) (sh : Option Direction) (bpm : ℚ)
    (ps : List Projectile) (st : HitState) :
    (processProjectiles env sh bpm ps st).2.death
      = if ps.any (fun p => decide (p.update env sh bpm = ProjectileHit.Hit))
          then some 0 else st.death := by
  induction ps generalizing st with
  | nil => rfl
  | cons p rest ih =>
    simp only [processProjectiles]
    cases h : p.update env sh bpm <;>
      simp [h, ih, List.any_cons] <;> split <;> rfl

/-- The retain loop over an appended list processes the first part and
threads the resulting state through the second part. -/
theorem processProjectiles_append (env : Env) (sh : Option Direction) (bpm : ℚ)
    (l1 l2 : List Projectile) (st : HitState) :
    processProjectiles env sh bpm (l1 ++ l2) st
      = ((processProjectiles env sh bpm l1 st).1
            ++ (processProjectiles env sh bpm l2 (processProjectiles env sh bpm l1 st).2).1,
          (processProjectiles env sh bpm l2 (processProjectiles env sh bpm l1 st).2).2) := by
  induction l1 generalizing st with
  | nil => simp [processProjectiles]
  | cons p rest ih =>
    simp only [List.cons_append, processProjectiles]
    cases h : p.update env sh bpm <;> simp [h, ih]

/-- Over a Hit-free list, the retain loop grows the camera shake by one
impulse of 1/100 per Blocked projectile. -/
theorem processProjectiles_shake_noHit (env : Env) (sh : Option Direction)
    (bpm : ℚ) (l : List Projectile) (st : HitState)
    (hl : ∀ q ∈ l, q.update env sh bpm ≠ ProjectileHit.Hit) :
    (processProjectiles env sh bpm l st).2.camera_shake
      = st.camera_shake
        + ((l.filter (fun q => decide (q.update env sh bpm = ProjectileHit.Blocked))).length : ℚ)
          * (1 / 100) := by
  induction l generalizing st with
  | nil => simp [processProjectiles]
  | cons p rest ih =>
    have hp : p.update env sh bpm ≠ ProjectileHit.Hit := hl p (by simp)
    have hrest : ∀ q ∈ rest, q.update env sh bpm ≠ ProjectileHit.Hit :=
      fun q hq => hl q (by simp [hq])
    simp only [processProjectiles]
    cases h : p.update env sh bpm with
    | None => simp [h, ih _ hrest, List.filter_cons]
    | Blocked =>
      simp [h, ih _ hrest, List.filter_cons]
      ring
    | Hit => exact absurd h hp

/-- The inlined body loop agrees with one `Projectile::parse` step: on a
non-empty stream it parses one triple and recurses from the parsed arrival
time. -/
theorem parseProjectiles_cons_eq (t : Token) (rest : List Token) (bpm start : ℚ) :
    parseProjectiles (t :: rest) bpm start
      = match Projectile.parse (t :: rest) bpm start with
        | .error e => .error e
        | .ok (p, toks) =>
          match parseProjectiles toks bpm p.arrival_time with
          | .error e => .error e
          | .ok ps => .ok (p :: ps) := by
  cases t with
  | Projectile ty =>
    cases rest with
    | nil => rfl
    | cons d rest2 =>
      cases d with
      | Direction direction =>
        cases rest2 with
        | nil => rfl
        | cons o rest3 =>
          cases o <;> rfl
      | Bpm => rfl
      | Offset => rfl
      | TimeOffset o => rfl
      | Number n => rfl
      | Projectile ty2 => rfl
  | Bpm => rfl
  | Offset => rfl
  | TimeOffset o => rfl
  | Number n => rfl
  | Direction d => rfl

/-- Arrival times produced by the body loop are the running start plus the
partial sums of the parsed time offsets converted to seconds. -/
theorem parseProjectiles_arrival (toks : List Token) (bpm start : ℚ) :
    ∀ ps : List Projectile, parseProjectiles toks bpm start = .ok ps →
      ∃ os : List TimeOffset, os.length = ps.length ∧
        ∀ i (hi : i < ps.length),
          (ps.get ⟨i, hi⟩).arrival_time
            = start + ((os.take (i + 1)).map (fun o => o.time bpm)).sum := by
  induction toks, bpm, start using parseProjectiles.induct with
  | case1 bpm start =>
    intro ps h
    simp only [parseProjectiles] at h
    cases h
    exact ⟨[], rfl, fun i hi => absurd hi (by simp)⟩
  | case2 bpm start ty =>
    intro ps h
    simp only [parseProjectiles] at h
    exact Except.noConfusion h
  | case3 bpm start ty direction =>
    intro ps h
    simp only [parseProjectiles] at h
    exact Except.noConfusion h
  | case4 bpm start ty direction rest3 time_offset e hrec ih =>
    intro ps h
    simp only [parseProjectiles] at h
    rw [hrec] at h
    exact Except.noConfusion h
  | case5 bpm start ty direction rest3 time_offset ps' hrec ih =>
    intro ps h
    simp only [parseProjectiles] at h
    rw [hrec] at h
    injection h with h
    subst h
    obtain ⟨os', hlen, harr⟩ := ih ps' hrec
    refine ⟨time_offset :: os', by simp [hlen], ?_⟩
    intro i hi
    cases i with
    | zero => simp
    | succ j =>
      have hj : j < ps'.length := by simpa using hi
      have hstep := harr j hj
      simp only [List.get_cons_succ, List.take_succ_cons, List.map_cons,
        List.sum_cons]
      rw [hstep]
      ring
  | case6 bpm start ty direction o rest3 hno =>
    intro ps h
    cases o with
    | TimeOffset time_offset => exact (hno time_offset rfl).elim
    | Bpm => simp [parseProjectiles] at h
    | Offset => simp [parseProjectiles] at h
    | Direction d2 => simp [parseProjectiles] at h
    | Number n => simp [parseProjectiles] at h
    | Projectile ty2 => simp [parseProjectiles] at h
  | case7 bpm start ty o rest3 hno =>
    intro ps h
    cases o with
    | Direction direction => exact (hno direction rfl).elim
    | Bpm => simp [parseProjectiles] at h
    | Offset => simp [parseProjectiles] at h
    | TimeOffset time_offset => simp [parseProjectiles] at h
    | Number n => simp [parseProjectiles] at h
    | Projectile ty2 => simp [parseProjectiles] at h
  | case8 t rest bpm start hno =>
    intro ps h
    cases t with
    | Projectile ty => exact (hno ty rfl).elim
    | Bpm => simp [parseProjectiles] at h
    | Offset => simp [parseProjectiles] at h
    | TimeOffset time_offset => simp [parseProjectiles] at h
    | Number n => simp [parseProjectiles] at h
    | Direction d2 => simp [parseProjectiles] at h

/-- A successful `Sheet::parse` decomposes into a successful lex, header
parses for the tempo and start offset, and a successful body loop producing
the projectile list. -/
theorem sheet_parse_ok_inv (source : String) (sheet : Sheet)
    (h : Sheet.parse source = .ok sheet) :
    ∃ toks rest1 rest2,
      parse_tokes source = .ok toks
        ∧ Sheet.parseBpm toks = .ok (sheet.bpm, rest1)
        ∧ Sheet.parseOffset rest1 = .ok (sheet.start_offset, rest2)
        ∧ parseProjectiles rest2 sheet.bpm sheet.start_offset
          = .ok sheet.projectiles := by
  unfold Sheet.parse at h
  cases h1 : parse_tokes source with
  | error e =>
    simp only [h1] at h
    exact Except.noConfusion h
  | ok toks =>
    simp only [h1] at h
    cases h2 : Sheet.parseBpm toks with
    | error e =>
      simp only [h2] at h
      exact Except.noConfusion h
    | ok pr1 =>
      obtain ⟨bpm, rest1⟩ := pr1
      simp only [h2] at h
      cases h3 : Sheet.parseOffset rest1 with
      | error e =>
        simp only [h3] at h
        exact Except.noConfusion h
      | ok pr2 =>
        obtain ⟨start_offset, rest2⟩ := pr2
        simp only [h3] at h
        cases h4 : parseProjectiles rest2 bpm start_offset with
        | error e =>
          simp only [h4] at h
          exact Except.noConfusion h
        | ok projectiles =>
          simp only [h4] at h
          injection h with h
          subst h
          exact ⟨toks, rest1, rest2, rfl, h2, h3, h4⟩

/-- C4: for every successfully parsed chart, `TimeOffset::time` converts a
triple to seconds as `fourths * (60/t)/4 + beats * (60/t) + bars * (60/t)*4`,
and there is a list of parsed time offsets, one per event, such that the
i-th event's arrival time is the start offset plus the sum of the first
`i + 1` offsets converted to seconds (in particular event 0 arrives at
`start_offset + offset_0` in seconds). -/
theorem sheet_parse_chained_timing (source : String) (sheet : Sheet)
    (h : Sheet.parse source = .ok sheet) (hbpm : 0 < sheet.bpm) :
    (∀ (o : TimeOffset) (t : ℚ),
        o.time t = (o.fourths : ℚ) * (60 / t) / 4 + (o.beats : ℚ) * (60 / t)
          + (o.bars : ℚ) * (60 / t) * 4)
      ∧ ∃ os : List TimeOffset, os.length = sheet.projectiles.length ∧
          ∀ i (hi : i < sheet.projectiles.length),
            (sheet.projectiles.get ⟨i, hi⟩).arrival_time
              = sheet.start_offset
                + ((os.take (i + 1)).map (fun o => o.time sheet.bpm)).sum := by
  obtain ⟨toks, rest1, rest2, h1, h2, h3, h4⟩ := sheet_parse_ok_inv source sheet h
  exact ⟨fun o t => rfl,
    parseProjectiles_arrival rest2 sheet.bpm sheet.start_offset
      sheet.projectiles h4⟩

/-- C4 witness: the one-event chart `"#bpm 120.0 #offset 0.0 norm U 1|0"`
parses, has positive tempo, and its event arrival times are the chained
partial sums of converted offsets. -/
theorem sheet_parse_chained_timing_witness :
    Sheet.parse ("#bpm 120.0 #offset 0.0 norm U 1|0")
        = .ok ⟨120, 0, [⟨1 / 2, Direction.Up, ProjectileType.Normal⟩]⟩
      ∧ (0 : ℚ) < (120 : ℚ)
      ∧ ((∀ (o : TimeOffset) (t : ℚ),
            o.time t = (o.fourths : ℚ) * (60 / t) / 4 + (o.beats : ℚ) * (60 / t)
              + (o.bars : ℚ) * (60 / t) * 4)
          ∧ ∃ os : List TimeOffset,
              os.length
                = (⟨120, 0, [⟨1 / 2, Direction.Up, ProjectileType.Normal⟩]⟩ : Sheet).projectiles.length
              ∧ ∀ i (hi : i
                    < (⟨120, 0, [⟨1 / 2, Direction.Up, ProjectileType.Normal⟩]⟩ : Sheet).projectiles.length),
                  ((⟨120, 0, [⟨1 / 2, Direction.Up, ProjectileType.Normal⟩]⟩ : Sheet).projectiles.get
                      ⟨i, hi⟩).arrival_time
                    = (⟨120, 0, [⟨1 / 2, Direction.Up, ProjectileType.Normal⟩]⟩ : Sheet).start_offset
                      + ((os.take (i + 1)).map
                          (fun o =>
                            o.time (⟨120, 0, [⟨1 / 2, Direction.Up, ProjectileType.Normal⟩]⟩ : Sheet).bpm)).sum) := by
  have hparse : Sheet.parse ("#bpm 120.0 #offset 0.0 norm U 1|0")
      = .ok ⟨120, 0, [⟨1 / 2, Direction.Up, ProjectileType.Normal⟩]⟩ := by
    with_unfolding_all rfl
  exact ⟨hparse, by norm_num,
    sheet_parse_chained_timing ("#bpm 120.0 #offset 0.0 norm U 1|0")
      ⟨120, 0, [⟨1 / 2, Direction.Up, ProjectileType.Normal⟩]⟩ hparse (by norm_num)⟩

/-- C1 counterexample: parsing the chart source `"#bpm 120 #offset 0 norm U
1|0"` does not succeed; the atom `120` lexes as a time offset (beats = 120),
so `Sheet::parse_bpm` sees a `TimeOffset` token where it expects a `Number`
and the whole parse fails with `UnexpectedToken`. -/
theorem sheet_parse_example_line_fails :
    Sheet.parse ("#bpm 120 #offset 0 norm U 1|0")
      = .error (.UnexpectedToken (.TimeOffset ⟨0, 120, 0⟩)) := by
  decide

/-- C1 (amended): with the header numbers written as decimal literals (which
do not lex as time offsets), `"#bpm 120.0 #offset 0.0 norm U 1|0"` parses
successfully to tempo 120, start offset 0, and exactly one event whose
direction is Up and whose arrival time is 1/2 second. -/
theorem sheet_parse_decimal_example_ok :
    Sheet.parse ("#bpm 120.0 #offset 0.0 norm U 1|0")
      = .ok ⟨120, 0, [⟨1 / 2, Direction.Up, ProjectileType.Normal⟩]⟩ := by
  with_unfolding_all rfl

/-- C7 counterexample: parsing `"#bpm 120"` does not fail with
`UnexpectedEof`; the atom `120` lexes as a time offset, so `parse_bpm` fails
with `UnexpectedToken` while tokens are still available. -/
theorem sheet_parse_missing_offset_not_eof :
    Sheet.parse ("#bpm 120")
        = .error (.UnexpectedToken (.TimeOffset ⟨0, 120, 0⟩))
      ∧ Sheet.parse ("#bpm 120") ≠ .error .UnexpectedEof := by
  constructor
  · decide
  · decide

/-- C7 (amended): `"#bpm 120"` fails with `UnexpectedToken` (its `120` lexes
as a time offset); a missing-offset chart whose tempo is a decimal literal,
`"#bpm 120.0"`, fails with `UnexpectedEof`; and the header-swapped source
`"#offset 0 #bpm 120 norm U 1|0"` fails with `UnexpectedToken` as claimed.
In every case only an error, never a chart, is returned. -/
theorem sheet_parse_error_examples :
    Sheet.parse ("#bpm 120")
        = .error (.UnexpectedToken (.TimeOffset ⟨0, 120, 0⟩))
      ∧ Sheet.parse ("#bpm 120.0") = .error .UnexpectedEof
      ∧ Sheet.parse ("#offset 0 #bpm 120 norm U 1|0")
        = .error (.UnexpectedToken .Offset) := by
  refine ⟨by decide, ?_, by decide⟩
  with_unfolding_all rfl

/-- C8: `Token::parse` classifies each atom in strict priority order: a
successful time-offset parse wins; otherwise a successful float parse yields
a `Number`; otherwise the exact-match keyword table applies; and if none
match the lexer fails with `UnrecognizedToken` carrying the atom's text. -/
theorem token_parse_priority (s : String) :
    (∀ o, TimeOffset.parse s = .ok o → Token.parse s = .ok (.TimeOffset o))
      ∧ (∀ e x, TimeOffset.parse s = .error e → parseFloat s = some x →
          Token.parse s = .ok (.Number x))
      ∧ (∀ e, TimeOffset.parse s = .error e → parseFloat s = none →
          s ≠ "#bpm" → s ≠ "#offset" → s ≠ "U" → s ≠ "D" → s ≠ "L" →
          s ≠ "R" → s ≠ "norm" →
          Token.parse s = .error (.UnrecognizedToken s))
      ∧ Token.parse ("#bpm") = .ok .Bpm
      ∧ Token.parse ("#offset") = .ok .Offset
      ∧ Token.parse ("U") = .ok (.Direction .Up)
      ∧ Token.parse ("D") = .ok (.Direction .Down)
      ∧ Token.parse ("L") = .ok (.Direction .Left)
      ∧ Token.parse ("R") = .ok (.Direction .Right)
      ∧ Token.parse ("norm") = .ok (.Projectile .Normal) := by
  refine ⟨?_, ?_, ?_, by decide, by decide, by decide, by decide, by decide,
    by decide, by decide⟩
  · intro o h
    simp [Token.parse, h]
  · intro e x h hf
    simp [Token.parse, h, hf]
  · intro e h hf h1 h2 h3 h4 h5 h6 h7
    simp [Token.parse, h, hf, h1, h2, h3, h4, h5, h6, h7]

/-- C8 witness: the three priority branches at concrete atoms — `"1|0"` is a
time offset, `"2.5"` is a number, `"xyz"` is unrecognized. -/
theorem token_parse_priority_witness :
    Token.parse ("1|0") = .ok (.TimeOffset ⟨0, 1, 0⟩)
      ∧ Token.parse ("2.5") = .ok (.Number (5 / 2))
      ∧ Token.parse ("xyz") = .error (.UnrecognizedToken ("xyz")) := by
  refine ⟨(token_parse_priority ("1|0")).1 ⟨0, 1, 0⟩ (by decide),
    (token_parse_priority ("2.5")).2.1 (.UnrecognizedToken ("2.5")) (5 / 2)
      (by decide) (by with_unfolding_all rfl),
    (token_parse_priority ("xyz")).2.2.1 (.UnrecognizedToken ("xyz"))
      (by decide) (by decide) (by decide) (by decide) (by decide) (by decide)
      (by decide) (by decide) (by decide)⟩

/-- C3: the distance function of src/game.rs returns
`(arrival_time - elapsed_time) * approach_speed * (tempo / 60) + 48`; at
`elapsed_time = arrival_time` it is exactly 48, and for fixed positive
approach speed and tempo it strictly decreases as elapsed time increases. -/
theorem projectile_distance_formula (p : Projectile) (env : Env) (bpm : ℚ) :
    p.distance env bpm
        = (p.arrival_time - env.time) * env.speed * (bpm / 60) + 48
      ∧ (env.time = p.arrival_time → p.distance env bpm = 48)
      ∧ (∀ t1 t2 : ℚ, t1 < t2 → 0 < env.speed → 0 < bpm →
          p.distance ⟨t2, env.speed⟩ bpm < p.distance ⟨t1, env.speed⟩ bpm) := by
  refine ⟨rfl, ?_, ?_⟩
  · intro h
    simp [Projectile.distance, h]
  · intro t1 t2 ht hs hb
    have hfac : 0 < env.speed * (bpm / 60) := by positivity
    have hsub : t2 - t1 > 0 := sub_pos.mpr ht
    simp only [Projectile.distance]
    nlinarith [mul_pos hsub hfac]

/-- C3 witness: at arrival time the distance is 48, and the distance at a
later elapsed time is smaller. -/
theorem projectile_distance_formula_witness :
    Projectile.distance ⟨1, Direction.Up, ProjectileType.Normal⟩ ⟨1, 2⟩ 60 = 48
      ∧ Projectile.distance ⟨1, Direction.Up, ProjectileType.Normal⟩ ⟨1, 2⟩ 60
        < Projectile.distance ⟨1, Direction.Up, ProjectileType.Normal⟩ ⟨0, 2⟩ 60 := by
  refine ⟨(projectile_distance_formula ⟨1, Direction.Up, ProjectileType.Normal⟩
      ⟨1, 2⟩ 60).2.1 rfl, ?_⟩
  exact (projectile_distance_formula ⟨1, Direction.Up, ProjectileType.Normal⟩
    ⟨0, 2⟩ 60).2.2 0 1 (by norm_num) (by norm_num) (by norm_num)

/-- C5 counterexample: at the same tempo the two legacy copies disagree —
for the event arriving at time 0 observed at elapsed time 40 with speed 1 and
tempo 60, the src/main.rs distance is 28 while the src/game.rs distance is 8,
and with no shield the src/main.rs copy classifies the event Pending while
the src/game.rs copy classifies it Hit. -/
theorem legacy_copies_disagree :
    MainRs.Projectile.distance ⟨0, Direction.Up, ProjectileType.Normal⟩ ⟨40, 1⟩ 60
        ≠ Projectile.distance ⟨0, Direction.Up, ProjectileType.Normal⟩ ⟨40, 1⟩ 60
      ∧ MainRs.Projectile.update ⟨0, Direction.Up, ProjectileType.Normal⟩ ⟨40, 1⟩
          none 60 = ProjectileHit.None
      ∧ Projectile.update ⟨0, Direction.Up, ProjectileType.Normal⟩ ⟨40, 1⟩
          none 60 = ProjectileHit.Hit := by
  refine ⟨?_, ?_, ?_⟩ <;> with_unfolding_all decide

/-- C5 (amended): the two legacy copies agree only up to tempo rescaling —
the src/main.rs distance and classification at tempo `bpm` equal the
src/game.rs distance and classification at tempo `bpm / 2` (src/main.rs
divides the tempo by 120 where src/game.rs divides by 60); they are not
equal at the same tempo. -/
theorem legacy_tempo_rescaling (p : Projectile) (env : Env)
    (shield : Option Direction) (bpm : ℚ) :
    MainRs.Projectile.distance p env bpm = p.distance env (bpm / 2)
      ∧ MainRs.Projectile.update p env shield bpm
        = p.update env shield (bpm / 2) := by
  have hd : MainRs.Projectile.distance p env bpm = p.distance env (bpm / 2) := by
    simp only [MainRs.Projectile.distance, Projectile.distance, div_div]
    norm_num
  exact ⟨hd, by simp only [MainRs.Projectile.update, Projectile.update, hd]⟩

/-- C2: in a frame's retain loop, a live event is Blocked exactly when the
shield matches its direction and its distance is below 48 — such events are
removed from the live list and each adds one point of score; an event is Hit
exactly when it is not blocked and its distance is at most 16 — such events
stay in the live list and (the run not being in a death state when the loop
runs) death progress becomes 0 when any event is Hit; all other events are
Pending, stay live, and contribute no score or death change. -/
theorem frame_classification_effects (env : Env) (sh : Option Direction)
    (bpm : ℚ) (ps : List Projectile) (st : HitState) :
    (processProjectiles env sh bpm ps st).1
        = ps.filter (fun p => decide (¬ p.update env sh bpm = ProjectileHit.Blocked))
      ∧ (processProjectiles env sh bpm ps st).2.score
        = st.score
          + (ps.filter (fun p => decide (p.update env sh bpm = ProjectileHit.Blocked))).length
      ∧ (processProjectiles env sh bpm ps st).2.death
        = (if ps.any (fun p => decide (p.update env sh bpm = ProjectileHit.Hit))
            then some 0 else st.death)
      ∧ (∀ p : Projectile, p.update env sh bpm = ProjectileHit.Blocked
          ↔ sh = some p.direction ∧ p.distance env bpm < 48)
      ∧ (∀ p : Projectile, p.update env sh bpm = ProjectileHit.Hit
          ↔ ¬(sh = some p.direction ∧ p.distance env bpm < 48)
            ∧ p.distance env bpm ≤ 16)
      ∧ (∀ p : Projectile, p.update env sh bpm = ProjectileHit.None
          ↔ ¬(sh = some p.direction ∧ p.distance env bpm < 48)
            ∧ ¬ p.distance env bpm ≤ 16) :=
  ⟨processProjectiles_fst env sh bpm ps st,
    processProjectiles_score env sh bpm ps st,
    processProjectiles_death env sh bpm ps st,
    fun p => update_eq_blocked_iff p env sh bpm,
    fun p => update_eq_hit_iff p env sh bpm,
    fun p => update_eq_none_iff p env sh bpm⟩

/-- C10: if some live event is classified Hit in a frame, the camera shake
coming out of the retain loop is exactly one impulse of 1/100 per event
Blocked after the last Hit event — the shake accumulated in earlier frames
(the initial state) and the impulses of events Blocked earlier in the same
frame are discarded by the reset to 0 that the Hit branch performs. -/
theorem hit_resets_camera_shake (env : Env) (sh : Option Direction) (bpm : ℚ)
    (l1 l2 : List Projectile) (p : Projectile) (st : HitState)
    (hp : p.update env sh bpm = ProjectileHit.Hit)
    (hl2 : ∀ q ∈ l2, q.update env sh bpm ≠ ProjectileHit.Hit) :
    (processProjectiles env sh bpm (l1 ++ p :: l2) st).2.camera_shake
      = ((l2.filter (fun q => decide (q.update env sh bpm = ProjectileHit.Blocked))).length : ℚ)
        * (1 / 100) := by
  rw [processProjectiles_append]
  simp only [processProjectiles, hp]
  rw [processProjectiles_shake_noHit env sh bpm l2 _ hl2]
  simp

/-- C10 witness: with an initial camera shake of 5, one Hit event followed
by one Pending event leaves zero shake after the loop. -/
theorem hit_resets_camera_shake_witness :
    (processProjectiles ⟨0, 1⟩ none 60
        ([] ++ ⟨-48, Direction.Up, ProjectileType.Normal⟩
          :: [⟨100, Direction.Up, ProjectileType.Normal⟩]) ⟨5, 0, none⟩).2.camera_shake
      = (([⟨100, Direction.Up, ProjectileType.Normal⟩].filter
          (fun q : Projectile =>
            decide (q.update ⟨0, 1⟩ none 60 = ProjectileHit.Blocked))).length : ℚ)
        * (1 / 100) := by
  refine hit_resets_camera_shake ⟨0, 1⟩ none 60 []
    [⟨100, Direction.Up, ProjectileType.Normal⟩]
    ⟨-48, Direction.Up, ProjectileType.Normal⟩ ⟨5, 0, none⟩ ?_ ?_
  · with_unfolding_all decide
  · intro q hq
    simp only [List.mem_singleton] at hq
    subst hq
    with_unfolding_all decide

/-- C6: with no restart pressed, every frame advances elapsed time by
`frame_dt * max (1 - death_progress_or_0) 0`; and when a death is in
progress the only other change is `death_progress += frame_dt` (unscaled) —
the shield, the live events, the score, the camera shake and the approach
speed are all left untouched. -/
theorem frame_update_death_freeze (sheet : Sheet) (s : GameState) (inp : Input)
    (hr : inp.restart = false) :
    ((GameState.update sheet s inp).env.time
        = s.env.time + inp.dt * max (1 - s.death.getD 0) 0)
      ∧ ∀ d, s.death = some d →
          GameState.update sheet s inp
            = { s with
                env := { s.env with time := s.env.time + inp.dt * max (1 - d) 0 }
                death := some (d + inp.dt) } := by
  constructor
  · cases hd : s.death <;> simp [GameState.update, hr, hd]
  · intro d hd
    simp [GameState.update, hr, hd]

/-- C6 witness: a dying state with `death_progress = 1/2` advances elapsed
time by the half-scaled delta and the death timer by the full delta, leaving
everything else unchanged. -/
theorem frame_update_death_freeze_witness :
    ((GameState.update ⟨120, 0, []⟩
          ⟨none, ⟨2, 128⟩, [], 1 / 2, 3, some (1 / 2)⟩
          ⟨1 / 10, false, false, false, false, false⟩).env.time
        = 2 + 1 / 10 * max (1 - (some (1 / 2 : ℚ)).getD 0) 0)
      ∧ GameState.update ⟨120, 0, []⟩
            ⟨none, ⟨2, 128⟩, [], 1 / 2, 3, some (1 / 2)⟩
            ⟨1 / 10, false, false, false, false, false⟩
          = ⟨none, ⟨2 + 1 / 10 * max (1 - (1 / 2 : ℚ)) 0, 128⟩, [], 1 / 2, 3,
              some (1 / 2 + 1 / 10)⟩ := by
  have h := frame_update_death_freeze ⟨120, 0, []⟩
    ⟨none, ⟨2, 128⟩, [], 1 / 2, 3, some (1 / 2)⟩
    ⟨1 / 10, false, false, false, false, false⟩ rfl
  exact ⟨h.1, h.2 (1 / 2) rfl⟩

/-- C9: a restart rebuilds the whole run state from the chart template —
the live events become the chart's event list, elapsed time 0, approach
speed 128, no shield, score 0, no death in progress — restart is idempotent
(two restarts equal one), and a frame update with restart pressed ends in
exactly the rebuilt state. -/
theorem restart_rebuilds_state (sheet : Sheet) (s s2 : GameState) (inp : Input)
    (hr : inp.restart = true) :
    (GameState.restart sheet s).projectiles = sheet.projectiles
      ∧ (GameState.restart sheet s).env.time = 0
      ∧ (GameState.restart sheet s).env.speed = 128
      ∧ (GameState.restart sheet s).shield = none
      ∧ (GameState.restart sheet s).score = 0
      ∧ (GameState.restart sheet s).death = none
      ∧ GameState.restart sheet (GameState.restart sheet s2)
        = GameState.restart sheet s2
      ∧ GameState.update sheet s inp = GameState.new sheet := by
  refine ⟨rfl, rfl, rfl, rfl, rfl, rfl, rfl, ?_⟩
  cases hd : s.death <;> simp [GameState.update, GameState.restart, hr, hd]

/-- C9 witness: restarting a mid-run state from a one-event chart yields the
fresh template state, and the update with restart pressed does the same. -/
theorem restart_rebuilds_state_witness :
    (GameState.restart ⟨120, 0, [⟨1 / 2, Direction.Up, ProjectileType.Normal⟩]⟩
          ⟨some Direction.Left, ⟨7, 150⟩, [], 1 / 4, 9, some (1 / 3)⟩).score = 0
      ∧ GameState.update ⟨120, 0, [⟨1 / 2, Direction.Up, ProjectileType.Normal⟩]⟩
            ⟨some Direction.Left, ⟨7, 150⟩, [], 1 / 4, 9, some (1 / 3)⟩
            ⟨1 / 10, false, false, false, false, true⟩
          = GameState.new ⟨120, 0, [⟨1 / 2, Direction.Up, ProjectileType.Normal⟩]⟩ := by
  have h := restart_rebuilds_state
    ⟨120, 0, [⟨1 / 2, Direction.Up, ProjectileType.Normal⟩]⟩
    ⟨some Direction.Left, ⟨7, 150⟩, [], 1 / 4, 9, some (1 / 3)⟩
    ⟨some Direction.Left, ⟨7, 150⟩, [], 1 / 4, 9, some (1 / 3)⟩
    ⟨1 / 10, false, false, false, false, true⟩ rfl
  exact ⟨h.2.2.2.2.1, h.2.2.2.2.2.2.2⟩

end Srg
